import Mathlib

/-!
Verification of the `bucketcheck` repository (`src/s3check.py`).

The Python source is shallowly embedded over `List Char` strings.  Python
string primitives (`strip`, `startswith`, `in`, `split(sep, maxsplit)`,
slicing) are modelled by executable Lean functions with the same semantics,
and the functions of `s3check.py` are translated one by one, keeping their
names.  Python exceptions are modelled by an `Except PyExc` result type;
the boto3 client is an abstract `StorageClient` whose calls either succeed,
raise a `botocore` `ClientError` carrying an error code, or raise some
other exception.
-/

namespace S3Check

/-- Strings are modelled as lists of characters. -/
abbrev Str := List Char

/-- The whitespace characters removed by the Python `str.strip()` method
(ASCII range). -/
def pyIsSpace (c : Char) : Bool :=
  c = ' ' || c = '\t' || c = '\n' || c = '\r' || c = '\x0b' || c = '\x0c'

/-- Python `s.lstrip()`. -/
def stripLeading (s : Str) : Str := s.dropWhile pyIsSpace

/-- Python `s.rstrip()`. -/
def stripTrailing (s : Str) : Str := (s.reverse.dropWhile pyIsSpace).reverse

/-- Python `s.strip()`. -/
def pyStrip (s : Str) : Str := stripTrailing (stripLeading s)

/-- Python `s.startswith(p)` (here `startsWith p s`). -/
def startsWith (p : Str) : Str → Bool :=
  fun s =>
    match p, s with
    | [], _ => true
    | _ :: _, [] => false
    | a :: ps, b :: ss => decide (a = b) && startsWith ps ss

/-- Python `p in s` (substring containment). -/
def containsSub (p : Str) : Str → Bool
  | [] => startsWith p []
  | a :: rest => startsWith p (a :: rest) || containsSub p rest

/-- Python `s.split(c, 1)`: the part before the first occurrence of `c`,
and, when `c` occurs, the remainder after it. -/
def splitOnce (c : Char) : Str → Str × Option Str
  | [] => ([], none)
  | a :: rest =>
    if a = c then ([], some rest)
    else
      let p := splitOnce c rest
      (a :: p.1, p.2)

/-- Python `s.split(c, 2)`: up to three parts. -/
def splitTwice (c : Char) (s : Str) : Str × Option (Str × Option Str) :=
  match splitOnce c s with
  | (x, none) => (x, none)
  | (x, some r) => (x, some (splitOnce c r))

/-- Python `s.split(p)[0]`: everything before the first occurrence of the
(multi-character) separator `p`. -/
def beforeSub (p : Str) : Str → Str
  | [] => []
  | a :: rest => if startsWith p (a :: rest) then [] else a :: beforeSub p rest

end S3Check

namespace S3Check

/-- Exceptions that can flow through the translated code.  All three
constructors model Python classes deriving from `Exception`, so that the
`except Exception` handler in `check_s3_url_access` catches every one of
them. -/
inductive PyExc where
  | valueError (msg : Str)
  | attributeError (msg : Str)
  | otherError (msg : Str)
deriving DecidableEq

/-- Python `str(e)` on the exceptions above. -/
def PyExc.message : PyExc → Str
  | .valueError m => m
  | .attributeError m => m
  | .otherError m => m

/-- Outcome of one boto3 client call: normal return, a `ClientError`
whose code is read from `e.response` by the source, or any other raised
exception. -/
inductive ClientResult where
  | success
  | clientError (code : Str)
  | raised (e : PyExc)
deriving DecidableEq

/-- The boto3 S3 client used by `S3AccessChecker`, abstracted to the two
operations the source calls.  A concrete client fixes the behaviour of
each call. -/
structure StorageClient where
  get_bucket_location : Str → ClientResult
  head_object : Str → Str → ClientResult

/-- Lines 186-190 of the source: strip a leading protocol. -/
def stripProtocol (d : Str) : Str :=
  if startsWith "https://".data d then d.drop 8
  else if startsWith "http://".data d then d.drop 7
  else d

/-- Lines 214-225 and 227-237 of the source: the two path-style branches of
`convert_domain_to_s3_url` have textually identical bodies
(`domain.split('/', 2)`, require at least two parts, bucket is the second,
path the optional third; fall through to an implicit `None` otherwise). -/
def pathStyleResult (domain : Str) : Option Str :=
  match splitTwice '/' domain with
  | (_, none) => none
  | (_, some (bucket, pathOpt)) =>
    let path := pathOpt.getD []
    if path.isEmpty then some ("s3://".data ++ bucket)
    else some ("s3://".data ++ bucket ++ '/' :: path)

/-- Lines 184-190 of the source: the trimmed, protocol-stripped form of
the input that the branch dispatch of `convert_domain_to_s3_url`
examines. -/
def strippedInput (domain0 : Str) : Str := stripProtocol (pyStrip domain0)

/-- Lines 193-212 of the source: the virtual-hosted branch of
`convert_domain_to_s3_url` (`domain.split('/', 1)` into host and path;
the bucket is everything before the first `.s3.` or `.s3-` in the
host). -/
def virtualStyleResult (domain : Str) : Option Str :=
  match splitOnce '/' domain with
  | (host, pathOpt) =>
    let path := pathOpt.getD []
    let bucket :=
      if containsSub ".s3.".data host then beforeSub ".s3.".data host
      else if containsSub ".s3-".data host then beforeSub ".s3-".data host
      else host
    if path.isEmpty then some ("s3://".data ++ bucket)
    else some ("s3://".data ++ bucket ++ '/' :: path)

/-- Lines 243-251 of the source: the bare `bucket[/key]` fallback branch
of `convert_domain_to_s3_url`. -/
def fallbackResult (domain : Str) : Option Str :=
  match splitOnce '/' domain with
  | (bucket, some path) => some ("s3://".data ++ bucket ++ '/' :: path)
  | (_, none) => some ("s3://".data ++ domain)

/-- Lines 192-251 of the source: the branch dispatch of
`convert_domain_to_s3_url`, applied to the trimmed, protocol-stripped
string.  `none` models the implicit Python `None` return when a
path-style branch is entered with fewer than two `/`-separated parts. -/
def convertCore (domain : Str) : Option Str :=
  if containsSub ".s3.".data domain || containsSub ".s3-".data domain then
    virtualStyleResult domain
  else if startsWith "s3.".data domain || startsWith "s3-".data domain then
    pathStyleResult domain
  else if containsSub "s3.amazonaws.com".data domain then
    pathStyleResult domain
  else if startsWith "s3://".data domain then
    some domain
  else
    fallbackResult domain

/-- Lines 182-251 of the source: `convert_domain_to_s3_url(domain)` is the
branch dispatch applied to the trimmed, protocol-stripped input. -/
def convert_domain_to_s3_url (domain0 : Str) : Option Str :=
  convertCore (strippedInput domain0)

/-- Lines 16-28 of the source: `parse_s3_url`.  Raises `ValueError` when
the URL does not start with `s3://`; otherwise drops the five scheme
characters and splits on the first `/` into bucket and key. -/
def parse_s3_url (u : Str) : Except PyExc (Str × Str) :=
  if startsWith "s3://".data u then
    match splitOnce '/' (u.drop 5) with
    | (b, some k) => .ok (b, k)
    | (b, none) => .ok (b, [])
  else .error (.valueError ("Invalid S3 URL format: ".data ++ u))

/-- Lines 30-45 of the source: `check_bucket_access`.  Only `ClientError`
is caught; any other exception raised by the client propagates. -/
def check_bucket_access (c : StorageClient) (bucket_name : Str) :
    Except PyExc (Bool × Str) :=
  match c.get_bucket_location bucket_name with
  | .success => .ok (true, "Bucket accessible".data)
  | .clientError code =>
    if code = "NoSuchBucket".data then .ok (false, "Bucket does not exist".data)
    else if code = "AccessDenied".data then .ok (false, "Access denied to bucket".data)
    else if code = "Forbidden".data then .ok (false, "Forbidden - no permissions".data)
    else .ok (false, "Error: ".data ++ code)
  | .raised e => .error e

/-- Lines 47-62 of the source: `check_object_access`. -/
def check_object_access (c : StorageClient) (bucket_name object_key : Str) :
    Except PyExc (Bool × Str) :=
  match c.head_object bucket_name object_key with
  | .success => .ok (true, "Object accessible".data)
  | .clientError code =>
    if code = "NoSuchKey".data then .ok (false, "Object does not exist".data)
    else if code = "NoSuchBucket".data then .ok (false, "Bucket does not exist".data)
    else if code = "AccessDenied".data || code = "Forbidden".data then
      .ok (false, "Access denied to object".data)
    else .ok (false, "Error: ".data ++ code)
  | .raised e => .error e

/-- The result dictionary built by `check_s3_url_access`. -/
structure Outcome where
  url : Option Str
  bucket : Str
  key : Str
  accessible : Bool
  message : Str
  type : Str
deriving DecidableEq

/-- The `try` block of `check_s3_url_access` (lines 66-90).  The argument
may be `none` because `main` feeds it values of `convert_domain_to_s3_url`,
which can be the Python `None`; calling `.startswith` on `None` inside
`parse_s3_url` raises an `AttributeError`. -/
def check_s3_url_access_body (c : StorageClient) (s3_url : Option Str) :
    Except PyExc Outcome :=
  match s3_url with
  | none => .error (.attributeError "NoneType object has no attribute startswith".data)
  | some u =>
    match parse_s3_url u with
    | .error e => .error e
    | .ok (bucket, key) =>
      if key.isEmpty then
        match check_bucket_access c bucket with
        | .error e => .error e
        | .ok (acc, msg) => .ok ⟨some u, bucket, key, acc, msg, "bucket".data⟩
      else
        match check_object_access c bucket key with
        | .error e => .error e
        | .ok (acc, msg) => .ok ⟨some u, bucket, key, acc, msg, "object".data⟩

/-- Lines 64-108 of the source: `check_s3_url_access` with its two
handlers.  `except ValueError` catches exactly the `valueError` case;
`except Exception` catches every remaining `PyExc` (each constructor of
`PyExc` models an `Exception` subclass).  A `.error` result would model an
exception escaping the method. -/
def check_s3_url_access (c : StorageClient) (s3_url : Option Str) :
    Except PyExc Outcome :=
  match check_s3_url_access_body c s3_url with
  | .ok r => .ok r
  | .error (.valueError m) => .ok ⟨s3_url, [], [], false, m, "invalid".data⟩
  | .error e => .ok ⟨s3_url, [], [], false, "Unexpected error: ".data ++ e.message, "error".data⟩

/-- The result-collection loop of `check_multiple_urls` (lines 122-125):
`as_completed` yields the submitted futures in some completion order, and
`future.result()` re-raises any exception the task body raised.  The
completion order is modelled as the list of input positions in the order
the corresponding futures complete. -/
def collectResults (c : StorageClient) (s3_urls : List (Option Str)) :
    List Nat → Except PyExc (List Outcome)
  | [] => .ok []
  | i :: rest =>
    match check_s3_url_access c (s3_urls.getD i none) with
    | .error e => .error e
    | .ok r =>
      match collectResults c s3_urls rest with
      | .error e => .error e
      | .ok rs => .ok (r :: rs)

/-- Lines 110-127 of the source: `check_multiple_urls`, parameterised by
the completion order of the submitted futures. -/
def check_multiple_urls (c : StorageClient) (s3_urls : List (Option Str))
    (order : List Nat) : Except PyExc (List Outcome) :=
  collectResults c s3_urls order

/-- One entry of the `urls` list built by `load_urls_from_file`. -/
structure UrlData where
  original : Str
  s3_url : Option Str
  line_num : Nat
deriving DecidableEq

/-- Python `enumerate(f, 1)` over the lines of the input file. -/
def numberLines (n : Nat) : List Str → List (Nat × Str)
  | [] => []
  | l :: rest => (n, l) :: numberLines (n + 1) rest

/-- Lines 253-274 of the source: `load_urls_from_file`, over the list of
lines of the file.  Blank and `#`-comment lines are skipped;
`convert_domain_to_s3_url` raises no exception, so the `except` warning
path never fires and every kept line yields one entry. -/
def load_urls_from_lines (lines : List Str) : List UrlData :=
  (numberLines 1 lines).filterMap (fun p =>
    let original := pyStrip p.2
    if original.isEmpty || startsWith "#".data original then none
    else some ⟨original, convert_domain_to_s3_url original, p.1⟩)

/-- Lines 344-357 of `main`: extract the converted URLs, run the batch,
then attach `url_data[i]['original']` to `results[i]` — `results` is in
completion order while `url_data` is in input order. -/
def main_report (c : StorageClient) (lines : List Str) (order : List Nat) :
    Except PyExc (List (Str × Outcome)) :=
  let url_data := load_urls_from_lines lines
  match check_multiple_urls c (url_data.map UrlData.s3_url) order with
  | .error e => .error e
  | .ok results => .ok (List.zipWith (fun r d => (d.original, r)) results url_data)

/-- The canonical `(bucket, key)` address the pipeline assigns to a raw
input string: the composition of `convert_domain_to_s3_url` (line 262)
with `parse_s3_url` (line 67), the two source functions every input
flows through. -/
def normalized_address (s : Str) : Option (Str × Str) :=
  match convert_domain_to_s3_url s with
  | none => none
  | some u =>
    match parse_s3_url u with
    | .ok bk => some bk
    | .error _ => none

/-- A client whose two calls always succeed. -/
def cAllOk : StorageClient := ⟨fun _ => .success, fun _ _ => .success⟩

/-- A client that reports `AccessDenied` on every call. -/
def cDenied : StorageClient :=
  ⟨fun _ => .clientError "AccessDenied".data, fun _ _ => .clientError "AccessDenied".data⟩

/-- The StorageClient contract of the design: the SDK signals failures as
`ClientError`s or other SDK errors, never as a Python `ValueError`. -/
def resultNoValueError : ClientResult → Prop
  | .raised (.valueError _) => False
  | _ => True

/-- A client that honours the collaborator contract above on every call. -/
def clientWellBehaved (c : StorageClient) : Prop :=
  (∀ b, resultNoValueError (c.get_bucket_location b)) ∧
  (∀ b k, resultNoValueError (c.head_object b k))

end S3Check

namespace S3Check

theorem startsWith_append (p r : Str) : startsWith p (p ++ r) = true := by
  induction p with
  | nil => rfl
  | cons a ps ih => simp [startsWith, ih]

theorem startsWith_self (p : Str) : startsWith p p = true := by
  have h := startsWith_append p []
  simpa using h

theorem containsSub_of_startsWith {p s : Str} (h : startsWith p s = true) :
    containsSub p s = true := by
  cases s with
  | nil => simpa [containsSub] using h
  | cons a rest => simp [containsSub, h]

theorem containsSub_append_self (l p : Str) : containsSub p (l ++ p) = true := by
  induction l with
  | nil => exact containsSub_of_startsWith (by simpa using startsWith_self p)
  | cons a rest ih => simp [containsSub, ih]

theorem splitOnce_of_not_mem {c : Char} {s : Str} (h : c ∉ s) :
    splitOnce c s = (s, none) := by
  induction s with
  | nil => rfl
  | cons a rest ih =>
    have ha : ¬ a = c := fun hac => h (hac ▸ List.mem_cons_self a rest)
    have h' : c ∉ rest := fun hm => h (List.mem_cons_of_mem _ hm)
    simp [splitOnce, ha, ih h']

theorem splitOnce_append {c : Char} {x : Str} (r : Str) (h : c ∉ x) :
    splitOnce c (x ++ c :: r) = (x, some r) := by
  induction x with
  | nil => simp [splitOnce]
  | cons a xs ih =>
    have ha : ¬ a = c := fun hac => h (hac ▸ List.mem_cons_self a xs)
    have h' : c ∉ xs := fun hm => h (List.mem_cons_of_mem _ hm)
    simp [splitOnce, ha, ih h']

theorem splitOnce_none_eq {c : Char} {s x : Str} (h : splitOnce c s = (x, none)) :
    x = s ∧ c ∉ s := by
  induction s generalizing x with
  | nil =>
    simp [splitOnce] at h
    simp [h]
  | cons a rest ih =>
    by_cases ha : a = c
    · simp [splitOnce, ha] at h
    · cases hp : splitOnce c rest with
      | mk y o =>
        simp [splitOnce, ha, hp] at h
        obtain ⟨hx, ho⟩ := h
        obtain ⟨hy, hm⟩ := ih (ho ▸ hp)
        subst hy
        refine ⟨hx.symm, ?_⟩
        intro hmem
        rcases List.mem_cons.mp hmem with h1 | h2
        · exact ha h1.symm
        · exact hm h2

theorem splitOnce_some_eq {c : Char} {s x r : Str}
    (h : splitOnce c s = (x, some r)) : s = x ++ c :: r ∧ c ∉ x := by
  induction s generalizing x r with
  | nil => simp [splitOnce] at h
  | cons a rest ih =>
    by_cases ha : a = c
    · subst ha
      simp [splitOnce] at h
      obtain ⟨hx, hr⟩ := h
      subst hx; subst hr
      simp
    · cases hp : splitOnce c rest with
      | mk y o =>
        simp [splitOnce, ha, hp] at h
        obtain ⟨hx, ho⟩ := h
        subst ho
        obtain ⟨hs, hm⟩ := ih hp
        subst hs
        refine ⟨by simp [← hx], ?_⟩
        intro hmem
        rw [← hx] at hmem
        rcases List.mem_cons.mp hmem with h1 | h2
        · exact ha h1.symm
        · exact hm h2

theorem stripLeading_cons {a : Char} (s : Str) (h : pyIsSpace a = false) :
    stripLeading (a :: s) = a :: s := by
  simp [stripLeading, List.dropWhile_cons, h]

theorem stripTrailing_concat (l : Str) {c : Char} (h : pyIsSpace c = false) :
    stripTrailing (l ++ [c]) = l ++ [c] := by
  simp [stripTrailing, List.reverse_append, List.dropWhile_cons, h]

theorem pyStrip_all_space {s : Str} (h : ∀ ch ∈ s, pyIsSpace ch = true) :
    pyStrip s = [] := by
  have h1 : stripLeading s = [] := by
    simp [stripLeading, List.dropWhile_eq_nil_iff]
    exact h
  simp [pyStrip, h1, stripTrailing]

theorem check_s3_url_access_isOk (c : StorageClient) (u : Option Str) :
    ∃ r, check_s3_url_access c u = .ok r := by
  rcases hb : check_s3_url_access_body c u with e | r
  · cases e with
    | valueError m =>
      exact ⟨⟨u, [], [], false, m, "invalid".data⟩,
        by unfold check_s3_url_access; rw [hb]⟩
    | attributeError m =>
      exact ⟨⟨u, [], [], false, "Unexpected error: ".data ++ m, "error".data⟩,
        by unfold check_s3_url_access; rw [hb]; rfl⟩
    | otherError m =>
      exact ⟨⟨u, [], [], false, "Unexpected error: ".data ++ m, "error".data⟩,
        by unfold check_s3_url_access; rw [hb]; rfl⟩
  · refine ⟨r, ?_⟩
    unfold check_s3_url_access
    rw [hb]

theorem drop_scheme (z : Str) : ("s3://".data ++ z).drop 5 = z := rfl

theorem scheme_startsWith (x y : Str) :
    startsWith "s3://".data ("s3://".data ++ x ++ y) = true := by
  rw [List.append_assoc]
  exact startsWith_append _ _

theorem parse_s3_url_append (z : Str) :
    parse_s3_url ("s3://".data ++ z) =
      (match splitOnce '/' z with
       | (b, some k) => .ok (b, k)
       | (b, none) => .ok (b, [])) := by
  simp only [parse_s3_url, startsWith_append, drop_scheme, if_true]
  rfl

theorem parse_without_key {b : Str} (hb : '/' ∉ b) :
    parse_s3_url ("s3://".data ++ b) = .ok (b, []) := by
  rw [parse_s3_url_append, splitOnce_of_not_mem hb]

theorem parse_with_key {b : Str} (k : Str) (hb : '/' ∉ b) :
    parse_s3_url ("s3://".data ++ (b ++ '/' :: k)) = .ok (b, k) := by
  rw [parse_s3_url_append, splitOnce_append k hb]

theorem parse_ok_of_scheme {u : Str} (h : startsWith "s3://".data u = true) :
    ∃ bk, parse_s3_url u = .ok bk := by
  unfold parse_s3_url
  rw [h]
  cases hs : splitOnce '/' (u.drop 5) with
  | mk b o => cases o <;> exact ⟨_, rfl⟩

theorem virtualStyleResult_scheme {t u : Str} (h : virtualStyleResult t = some u) :
    startsWith "s3://".data u = true := by
  unfold virtualStyleResult at h
  rcases hs : splitOnce '/' t with ⟨host, pathOpt⟩
  rw [hs] at h
  dsimp only at h
  split at h
  · injection h with h
    rw [← h]
    exact startsWith_append _ _
  · injection h with h
    rw [← h]
    exact scheme_startsWith _ _

theorem pathStyleResult_scheme {t u : Str} (h : pathStyleResult t = some u) :
    startsWith "s3://".data u = true := by
  unfold pathStyleResult at h
  rcases hs : splitTwice '/' t with ⟨x, o⟩
  rw [hs] at h
  cases o with
  | none => exact absurd h (by simp)
  | some p =>
    rcases p with ⟨bucket, pathOpt⟩
    dsimp only at h
    split at h
    · injection h with h
      rw [← h]
      exact startsWith_append _ _
    · injection h with h
      rw [← h]
      exact scheme_startsWith _ _

theorem fallbackResult_scheme {t u : Str} (h : fallbackResult t = some u) :
    startsWith "s3://".data u = true := by
  unfold fallbackResult at h
  rcases hs : splitOnce '/' t with ⟨bucket, o⟩
  rw [hs] at h
  cases o with
  | none =>
    injection h with h
    rw [← h]
    exact startsWith_append _ _
  | some path =>
    injection h with h
    rw [← h]
    exact scheme_startsWith _ _

theorem convertCore_scheme {t u : Str} (h : convertCore t = some u) :
    startsWith "s3://".data u = true := by
  unfold convertCore at h
  split at h
  · exact virtualStyleResult_scheme h
  · split at h
    · exact pathStyleResult_scheme h
    · split at h
      · exact pathStyleResult_scheme h
      · split at h
        · rename_i hsw
          cases h
          exact hsw
        · exact fallbackResult_scheme h

theorem check_bucket_access_cases (c : StorageClient) (b : Str) :
    (∃ p, check_bucket_access c b = .ok p) ∨
    (∃ e, check_bucket_access c b = .error e ∧ c.get_bucket_location b = .raised e) := by
  cases hg : c.get_bucket_location b with
  | success =>
    exact Or.inl ⟨(true, "Bucket accessible".data),
      by unfold check_bucket_access; rw [hg]⟩
  | clientError code =>
    left
    unfold check_bucket_access
    rw [hg]
    dsimp only
    split_ifs <;> exact ⟨_, rfl⟩
  | raised e =>
    right
    refine ⟨e, ?_, rfl⟩
    unfold check_bucket_access
    rw [hg]

theorem check_object_access_cases (c : StorageClient) (b k : Str) :
    (∃ p, check_object_access c b k = .ok p) ∨
    (∃ e, check_object_access c b k = .error e ∧ c.head_object b k = .raised e) := by
  cases hg : c.head_object b k with
  | success =>
    exact Or.inl ⟨(true, "Object accessible".data),
      by unfold check_object_access; rw [hg]⟩
  | clientError code =>
    left
    unfold check_object_access
    rw [hg]
    dsimp only
    split_ifs <;> exact ⟨_, rfl⟩
  | raised e =>
    right
    refine ⟨e, ?_, rfl⟩
    unfold check_object_access
    rw [hg]

theorem check_url_bucket_eq (c : StorageClient) {b : Str} (hb : '/' ∉ b)
    {acc : Bool} {msg : Str} (h : check_bucket_access c b = .ok (acc, msg)) :
    check_s3_url_access c (some ("s3://".data ++ b)) =
      .ok ⟨some ("s3://".data ++ b), b, [], acc, msg, "bucket".data⟩ := by
  unfold check_s3_url_access check_s3_url_access_body
  dsimp only
  rw [parse_without_key hb]
  dsimp only
  rw [h]
  rfl

theorem check_url_not_invalid (c : StorageClient) (hc : clientWellBehaved c)
    {u b k : Str} (hp : parse_s3_url u = .ok (b, k)) :
    ∃ r, check_s3_url_access c (some u) = .ok r ∧ r.type ≠ "invalid".data := by
  unfold check_s3_url_access check_s3_url_access_body
  dsimp only
  rw [hp]
  dsimp only
  cases hk : k.isEmpty with
  | true =>
    rw [if_pos rfl]
    rcases check_bucket_access_cases c b with ⟨⟨acc, msg⟩, hcb⟩ | ⟨e, hcb, hgb⟩
    · rw [hcb]
      exact ⟨_, rfl, (by decide : "bucket".data ≠ "invalid".data)⟩
    · rw [hcb]
      cases e with
      | valueError m =>
        have := hc.1 b
        rw [hgb] at this
        exact absurd this (by simp [resultNoValueError])
      | attributeError m =>
        exact ⟨_, rfl, (by decide : "error".data ≠ "invalid".data)⟩
      | otherError m =>
        exact ⟨_, rfl, (by decide : "error".data ≠ "invalid".data)⟩
  | false =>
    rw [if_neg (by decide : ¬ false = true)]
    rcases check_object_access_cases c b k with ⟨⟨acc, msg⟩, hco⟩ | ⟨e, hco, hgo⟩
    · rw [hco]
      exact ⟨_, rfl, (by decide : "object".data ≠ "invalid".data)⟩
    · rw [hco]
      cases e with
      | valueError m =>
        have := hc.2 b k
        rw [hgo] at this
        exact absurd this (by simp [resultNoValueError])
      | attributeError m =>
        exact ⟨_, rfl, (by decide : "error".data ≠ "invalid".data)⟩
      | otherError m =>
        exact ⟨_, rfl, (by decide : "error".data ≠ "invalid".data)⟩

theorem stripLeading_scheme (x : Str) :
    stripLeading ("s3://".data ++ x) = "s3://".data ++ x := rfl

theorem stripProtocol_scheme (x : Str) :
    stripProtocol ("s3://".data ++ x) = "s3://".data ++ x := by
  unfold stripProtocol
  rw [show startsWith "https://".data ("s3://".data ++ x) = false from rfl,
      show startsWith "http://".data ("s3://".data ++ x) = false from rfl]
  simp

theorem getLastD_concat (l : Str) (a d : Char) : (l ++ [a]).getLastD d = a := by
  induction l generalizing d with
  | nil => rfl
  | cons x xs ih => simp [List.getLastD]

theorem pyStrip_scheme (b k : Str) (hlast : pyIsSpace (k.getLastD '/') = false) :
    pyStrip ("s3://".data ++ (b ++ '/' :: k)) = "s3://".data ++ (b ++ '/' :: k) := by
  unfold pyStrip
  rw [stripLeading_scheme]
  rcases k.eq_nil_or_concat with rfl | ⟨k', c, rfl⟩
  · have h : ("s3://".data ++ (b ++ '/' :: ([] : Str)))
        = ("s3://".data ++ b) ++ ['/'] := by simp
    rw [h]
    exact stripTrailing_concat _ (by decide)
  · simp only [List.concat_eq_append] at hlast ⊢
    rw [getLastD_concat] at hlast
    have h : ("s3://".data ++ (b ++ '/' :: (k' ++ [c])))
        = ("s3://".data ++ (b ++ '/' :: k')) ++ [c] := by simp
    rw [h]
    exact stripTrailing_concat _ hlast

theorem collectResults_ok (c : StorageClient) (urls : List (Option Str)) :
    ∀ order : List Nat,
      ∃ rs, collectResults c urls order = .ok rs ∧ rs.length = order.length := by
  intro order
  induction order with
  | nil => exact ⟨[], rfl, rfl⟩
  | cons i rest ih =>
    obtain ⟨r, hr⟩ := check_s3_url_access_isOk c (urls.getD i none)
    obtain ⟨rs, hrs, hlen⟩ := ih
    exact ⟨r :: rs, by simp only [collectResults, hr, hrs], by simp [hlen]⟩

end S3Check

namespace S3Check

/-- Claim C2: for every list of input URLs, every storage-client behaviour
and every completion order of the submitted futures (a permutation of the
input positions), `check_multiple_urls` returns one outcome per submitted
URL: the result list has exactly the length of the input list. -/
theorem claim_C2_batch_length_invariant (c : StorageClient)
    (s3_urls : List (Option Str)) (order : List Nat)
    (h : order.Perm (List.range s3_urls.length)) :
    ∃ rs, check_multiple_urls c s3_urls order = .ok rs
      ∧ rs.length = s3_urls.length := by
  obtain ⟨rs, hrs, hlen⟩ := collectResults_ok c s3_urls order
  exact ⟨rs, hrs, by rw [hlen, h.length_eq, List.length_range]⟩

/-- Witness for C2 at one concrete input and completion order. -/
theorem claim_C2_witness :
    ∃ rs, check_multiple_urls cAllOk [some "s3://alpha".data] [0] = .ok rs
      ∧ rs.length = [some "s3://alpha".data].length :=
  claim_C2_batch_length_invariant cAllOk [some "s3://alpha".data] [0] (by decide)

/-- Claim C5: for every input URL (including the `None` produced by the
normalizer) and every storage-client behaviour, `check_s3_url_access`
returns an outcome record and never lets an exception escape: its result
is always `ok`, never `error`. -/
theorem claim_C5_no_exception_escapes (c : StorageClient) (u : Option Str) :
    ∃ r, check_s3_url_access c u = .ok r :=
  check_s3_url_access_isOk c u

/-- Claim C1 is refuted by the code: `main` attaches
`url_data[i].original` to the i-th **completed** result, not to the result
of the i-th input.  With inputs `alpha`, `beta` and completion order
`[1, 0]`, the report row carrying original domain `alpha` holds the probe
outcome of `s3://beta` (and vice versa), although `alpha` normalizes to
`s3://alpha`: rows are not joined to their own originating input line. -/
theorem claim_C1_report_join_mismatch :
    main_report cAllOk ["alpha".data, "beta".data] [1, 0]
      = .ok [("alpha".data,
                ⟨some "s3://beta".data, "beta".data, [], true,
                  "Bucket accessible".data, "bucket".data⟩),
             ("beta".data,
                ⟨some "s3://alpha".data, "alpha".data, [], true,
                  "Bucket accessible".data, "bucket".data⟩)]
    ∧ convert_domain_to_s3_url "alpha".data = some "s3://alpha".data :=
  ⟨rfl, rfl⟩

/-- Claim C3 is refuted: normalizing the empty string or a whitespace-only
string does not fail at all — both yield the degenerate URL `s3://`
(empty bucket, empty key), which the probe then treats as an ordinary
bucket check, not as MALFORMED_INPUT (`type = "invalid"`). -/
theorem claim_C3_counterexample :
    convert_domain_to_s3_url [] = some "s3://".data
    ∧ convert_domain_to_s3_url " ".data = some "s3://".data
    ∧ check_s3_url_access cAllOk (some "s3://".data)
        = .ok ⟨some "s3://".data, [], [], true,
            "Bucket accessible".data, "bucket".data⟩ :=
  ⟨rfl, rfl, rfl⟩

/-- Claim C3, amended: normalizing the empty string or a whitespace-only
string succeeds and yields the degenerate address `s3://` with empty
bucket and empty key; the normalizer never classifies any input as
MALFORMED_INPUT. -/
theorem claim_C3_amended_empty_input (s : Str)
    (h : ∀ ch ∈ s, pyIsSpace ch = true) :
    convert_domain_to_s3_url s = some "s3://".data
    ∧ normalized_address s = some ([], []) := by
  have h0 : pyStrip s = [] := pyStrip_all_space h
  have h1 : convert_domain_to_s3_url s = some "s3://".data := by
    unfold convert_domain_to_s3_url strippedInput
    rw [h0]
    rfl
  refine ⟨h1, ?_⟩
  unfold normalized_address
  rw [h1]
  rfl

/-- Witness for the amended C3 at the whitespace-only input. -/
theorem claim_C3_witness :
    convert_domain_to_s3_url " ".data = some "s3://".data
    ∧ normalized_address " ".data = some ([], []) :=
  claim_C3_amended_empty_input " ".data (by decide)

/-- Claim C4 is refuted: the input string `/foo` is not classified as
MALFORMED_INPUT (nothing ever is), and its canonical address has an
empty bucket with the non-empty key `foo`. -/
theorem claim_C4_counterexample :
    normalized_address "/foo".data = some ([], "foo".data)
    ∧ "foo".data ≠ ([] : Str) :=
  ⟨rfl, by decide⟩

/-- Claim C8: the normalizer maps the three worked examples of the spec to
the stated canonical addresses. -/
theorem claim_C8_worked_examples :
    normalized_address "bucket.s3.us-west-2.amazonaws.com/path/file.txt".data
      = some ("bucket".data, "path/file.txt".data)
    ∧ normalized_address "s3.amazonaws.com/my-bucket/file.pdf".data
      = some ("my-bucket".data, "file.pdf".data)
    ∧ normalized_address "just-a-bucket-name".data
      = some ("just-a-bucket-name".data, []) :=
  ⟨rfl, rfl, rfl⟩

/-- Claim C9 is refuted as universally stated: `s3.a.s3.b` begins with
`s3.` and contains no `/`, yet `convert_domain_to_s3_url` does not return
`None` — the virtual-hosted branch (`.s3.` substring) wins first and
returns `s3://s3.a`. -/
theorem claim_C9_counterexample :
    startsWith "s3.".data (strippedInput "s3.a.s3.b".data) = true
    ∧ ('/' ∉ strippedInput "s3.a.s3.b".data)
    ∧ convert_domain_to_s3_url "s3.a.s3.b".data = some "s3://s3.a".data :=
  ⟨rfl, by decide, rfl⟩

/-- Claim C6 is refuted: with `bucket = my.s3.bucket` (a legal bucket name
containing a dot before `s3`), the canonical input `s3://my.s3.bucket/key`
is captured by the virtual-hosted branch instead of the `s3://`
passthrough, yielding a different address, and re-normalizing the output
changes the address again. -/
theorem claim_C6_idempotence_counterexample :
    convert_domain_to_s3_url "s3://my.s3.bucket/key".data
      = some "s3://s3://my.s3.bucket/key".data
    ∧ normalized_address "s3://my.s3.bucket/key".data
      = some ("s3:".data, "/my.s3.bucket/key".data)
    ∧ normalized_address "s3://my.s3.bucket/key".data
      ≠ some ("my.s3.bucket".data, "key".data)
    ∧ normalized_address "s3://s3://my.s3.bucket/key".data
      ≠ normalized_address "s3://my.s3.bucket/key".data :=
  ⟨rfl, rfl, by decide, by decide⟩

/-- Claim C4, amended: the invariant `key nonempty implies bucket
nonempty` holds for every input whose trimmed, protocol-stripped form
matches none of the S3 host patterns (so the bare `bucket[/key]` fallback
handles it) and does not begin with `/`.  In general it fails, as
`claim_C4_counterexample` shows. -/
theorem claim_C4_amended_invariant (s : Str)
    (h1 : containsSub ".s3.".data (strippedInput s) = false)
    (h2 : containsSub ".s3-".data (strippedInput s) = false)
    (h3 : startsWith "s3.".data (strippedInput s) = false)
    (h4 : startsWith "s3-".data (strippedInput s) = false)
    (h5 : containsSub "s3.amazonaws.com".data (strippedInput s) = false)
    (h6 : startsWith "s3://".data (strippedInput s) = false)
    (h7 : (strippedInput s).head? ≠ some '/')
    {b k : Str} (hres : normalized_address s = some (b, k)) (hk : k ≠ []) :
    b ≠ [] := by
  have hconv : convert_domain_to_s3_url s = fallbackResult (strippedInput s) := by
    unfold convert_domain_to_s3_url convertCore
    rw [h1, h2, h3, h4, h5, h6]
    simp
  unfold normalized_address at hres
  rw [hconv] at hres
  unfold fallbackResult at hres
  rcases hs : splitOnce '/' (strippedInput s) with ⟨x, o⟩
  rw [hs] at hres
  cases o with
  | none =>
    obtain ⟨hxt, hmem⟩ := splitOnce_none_eq hs
    dsimp only at hres
    rw [parse_without_key hmem] at hres
    simp only [Option.some.injEq, Prod.mk.injEq] at hres
    exact absurd hres.2.symm hk
  | some path =>
    obtain ⟨hst, hmem⟩ := splitOnce_some_eq hs
    have hx : x ≠ [] := by
      intro hxe
      subst hxe
      rw [hst] at h7
      exact h7 rfl
    dsimp only at hres
    rw [List.append_assoc, parse_with_key path hmem] at hres
    simp only [Option.some.injEq, Prod.mk.injEq] at hres
    rw [← hres.1]
    exact hx

/-- Witness for the amended C4 at a plain `bucket/key` input. -/
theorem claim_C4_witness : "plainbucket".data ≠ ([] : Str) :=
  claim_C4_amended_invariant "plainbucket/with/key".data (by decide) (by decide)
    (by decide) (by decide) (by decide) (by decide) (by decide) rfl (by decide)

/-- Claim C6, amended: normalization is idempotent on canonical-scheme
inputs `s3://bucket/key` provided the assembled string contains none of
the host markers `.s3.`, `.s3-`, `s3.amazonaws.com`, the bucket contains
no `/`, and the key does not end in whitespace: the input passes through
unchanged (so re-normalizing the output is a fixed point) and parses to
exactly `(bucket, key)`.  Without the marker proviso it fails, as
`claim_C6_idempotence_counterexample` shows. -/
theorem claim_C6_amended_idempotence (b k : Str)
    (h1 : containsSub ".s3.".data ("s3://".data ++ (b ++ '/' :: k)) = false)
    (h2 : containsSub ".s3-".data ("s3://".data ++ (b ++ '/' :: k)) = false)
    (h3 : containsSub "s3.amazonaws.com".data ("s3://".data ++ (b ++ '/' :: k)) = false)
    (h4 : '/' ∉ b)
    (h5 : pyIsSpace (k.getLastD '/') = false) :
    convert_domain_to_s3_url ("s3://".data ++ (b ++ '/' :: k))
      = some ("s3://".data ++ (b ++ '/' :: k))
    ∧ normalized_address ("s3://".data ++ (b ++ '/' :: k)) = some (b, k) := by
  have hstrip : strippedInput ("s3://".data ++ (b ++ '/' :: k))
      = "s3://".data ++ (b ++ '/' :: k) := by
    unfold strippedInput
    rw [pyStrip_scheme b k h5, stripProtocol_scheme]
  have hconv : convert_domain_to_s3_url ("s3://".data ++ (b ++ '/' :: k))
      = some ("s3://".data ++ (b ++ '/' :: k)) := by
    unfold convert_domain_to_s3_url convertCore
    rw [hstrip, h1, h2, h3]
    rw [show startsWith "s3.".data ("s3://".data ++ (b ++ '/' :: k)) = false from rfl,
        show startsWith "s3-".data ("s3://".data ++ (b ++ '/' :: k)) = false from rfl,
        startsWith_append]
    simp
  refine ⟨hconv, ?_⟩
  unfold normalized_address
  rw [hconv]
  dsimp only
  rw [parse_with_key k h4]

/-- Witness for the amended C6 at `bucket = bucket`, `key = key`. -/
theorem claim_C6_witness :
    convert_domain_to_s3_url ("s3://".data ++ ("bucket".data ++ '/' :: "key".data))
      = some ("s3://".data ++ ("bucket".data ++ '/' :: "key".data))
    ∧ normalized_address ("s3://".data ++ ("bucket".data ++ '/' :: "key".data))
      = some ("bucket".data, "key".data) :=
  claim_C6_amended_idempotence "bucket".data "key".data (by decide) (by decide)
    (by decide) (by decide) (by decide)

/-- Claim C7: for a canonical address with empty key (a URL `s3://b` whose
bucket contains no slash), the probe runs the bucket-level check and maps
the client outcome exactly as the source does: success gives an accessible
(`accessible = true`) bucket outcome, `NoSuchBucket` a bucket-missing
outcome with `accessible = false`, `AccessDenied` and `Forbidden` denial
outcomes with `accessible = false`, and any other client error code an
outcome whose detail message embeds the raw error code. -/
theorem claim_C7_bucket_level_mapping (c : StorageClient) (b : Str)
    (hb : '/' ∉ b) :
    (c.get_bucket_location b = .success →
      check_s3_url_access c (some ("s3://".data ++ b))
        = .ok ⟨some ("s3://".data ++ b), b, [], true,
            "Bucket accessible".data, "bucket".data⟩)
    ∧ (c.get_bucket_location b = .clientError "NoSuchBucket".data →
      check_s3_url_access c (some ("s3://".data ++ b))
        = .ok ⟨some ("s3://".data ++ b), b, [], false,
            "Bucket does not exist".data, "bucket".data⟩)
    ∧ (c.get_bucket_location b = .clientError "AccessDenied".data →
      check_s3_url_access c (some ("s3://".data ++ b))
        = .ok ⟨some ("s3://".data ++ b), b, [], false,
            "Access denied to bucket".data, "bucket".data⟩)
    ∧ (c.get_bucket_location b = .clientError "Forbidden".data →
      check_s3_url_access c (some ("s3://".data ++ b))
        = .ok ⟨some ("s3://".data ++ b), b, [], false,
            "Forbidden - no permissions".data, "bucket".data⟩)
    ∧ (∀ code, c.get_bucket_location b = .clientError code →
        code ≠ "NoSuchBucket".data → code ≠ "AccessDenied".data →
        code ≠ "Forbidden".data →
        check_s3_url_access c (some ("s3://".data ++ b))
          = .ok ⟨some ("s3://".data ++ b), b, [], false,
              "Error: ".data ++ code, "bucket".data⟩
        ∧ containsSub code ("Error: ".data ++ code) = true) := by
  refine ⟨?_, ?_, ?_, ?_, ?_⟩
  · intro hg
    exact check_url_bucket_eq c hb
      (by unfold check_bucket_access; rw [hg])
  · intro hg
    exact check_url_bucket_eq c hb
      (by unfold check_bucket_access; rw [hg]; rfl)
  · intro hg
    exact check_url_bucket_eq c hb
      (by unfold check_bucket_access; rw [hg]; rfl)
  · intro hg
    exact check_url_bucket_eq c hb
      (by unfold check_bucket_access; rw [hg]; rfl)
  · intro code hg hn1 hn2 hn3
    refine ⟨check_url_bucket_eq c hb ?_, containsSub_append_self _ _⟩
    unfold check_bucket_access
    rw [hg]
    dsimp only
    rw [if_neg hn1, if_neg hn2, if_neg hn3]

/-- Witness for C7: a client answering `AccessDenied` on the bucket
`mybucket` yields the denial outcome. -/
theorem claim_C7_witness :
    check_s3_url_access cDenied (some ("s3://".data ++ "mybucket".data))
      = .ok ⟨some ("s3://".data ++ "mybucket".data), "mybucket".data, [], false,
          "Access denied to bucket".data, "bucket".data⟩ :=
  (claim_C7_bucket_level_mapping cDenied "mybucket".data (by decide)).2.2.1 rfl

/-- Claim C9, amended: for every input whose trimmed, protocol-stripped
form begins with `s3.` or `s3-` (or contains `s3.amazonaws.com`), does
not contain `.s3.` or `.s3-`, and contains no `/`, the normalizer falls
off the path-style branch and returns `None`; probing that `None` yields
an unexpected-error outcome (`type = "error"`), not a MALFORMED_INPUT
(`type = "invalid"`) one.  The original unconditional form fails, as
`claim_C9_counterexample` shows. -/
theorem claim_C9_amended_none_flow (s : Str)
    (h1 : containsSub ".s3.".data (strippedInput s) = false)
    (h2 : containsSub ".s3-".data (strippedInput s) = false)
    (h3 : startsWith "s3.".data (strippedInput s) = true
        ∨ startsWith "s3-".data (strippedInput s) = true
        ∨ containsSub "s3.amazonaws.com".data (strippedInput s) = true)
    (h4 : '/' ∉ strippedInput s) :
    convert_domain_to_s3_url s = none
    ∧ ∀ c : StorageClient,
        check_s3_url_access c none
          = .ok ⟨none, [], [], false,
              "Unexpected error: NoneType object has no attribute startswith".data,
              "error".data⟩ := by
  have hps : pathStyleResult (strippedInput s) = none := by
    unfold pathStyleResult splitTwice
    rw [splitOnce_of_not_mem h4]
  have hconv : convert_domain_to_s3_url s = none := by
    unfold convert_domain_to_s3_url convertCore
    rw [h1, h2]
    cases hg2 : (startsWith "s3.".data (strippedInput s)
        || startsWith "s3-".data (strippedInput s)) with
    | true => simp [hg2, hps]
    | false =>
      have hc3 : containsSub "s3.amazonaws.com".data (strippedInput s) = true := by
        rcases h3 with ha | hb3 | hc
        · rw [ha] at hg2
          simp at hg2
        · rw [hb3] at hg2
          simp at hg2
        · exact hc
      simp [hg2, hc3, hps]
  exact ⟨hconv, fun c => rfl⟩

/-- Witness for the amended C9 at the input `s3.amazonaws.com`. -/
theorem claim_C9_witness :
    convert_domain_to_s3_url "s3.amazonaws.com".data = none
    ∧ ∀ c : StorageClient,
        check_s3_url_access c none
          = .ok ⟨none, [], [], false,
              "Unexpected error: NoneType object has no attribute startswith".data,
              "error".data⟩ :=
  claim_C9_amended_none_flow "s3.amazonaws.com".data (by decide) (by decide)
    (Or.inl (by decide)) (by decide)

/-- Claim C10: whenever the normalizer returns a string, that string
starts with `s3://`, so `parse_s3_url` on it never raises `ValueError`,
and the MALFORMED_INPUT branch of `check_s3_url_access` (outcome
`type = "invalid"`) is unreachable for normalizer-produced URLs — for
every client that honours the StorageClient collaborator contract of the
design (failures are `ClientError`s or other SDK errors, never a Python
`ValueError`). -/
theorem claim_C10_scheme_invariant (s u : Str)
    (h : convert_domain_to_s3_url s = some u) :
    startsWith "s3://".data u = true
    ∧ (∃ bk, parse_s3_url u = .ok bk)
    ∧ ∀ c : StorageClient, clientWellBehaved c →
        ∃ r, check_s3_url_access c (some u) = .ok r
          ∧ r.type ≠ "invalid".data := by
  unfold convert_domain_to_s3_url at h
  have h1 : startsWith "s3://".data u = true := convertCore_scheme h
  obtain ⟨⟨b, k⟩, hp⟩ := parse_ok_of_scheme h1
  exact ⟨h1, ⟨_, hp⟩, fun c hc => check_url_not_invalid c hc hp⟩

/-- Witness for C10 at the bare bucket input `mybucket`. -/
theorem claim_C10_witness :
    startsWith "s3://".data "s3://mybucket".data = true
    ∧ (∃ bk, parse_s3_url "s3://mybucket".data = .ok bk)
    ∧ ∀ c : StorageClient, clientWellBehaved c →
        ∃ r, check_s3_url_access c (some "s3://mybucket".data) = .ok r
          ∧ r.type ≠ "invalid".data :=
  claim_C10_scheme_invariant "mybucket".data "s3://mybucket".data rfl

end S3Check
